import Mathlib

/-!
Shallow embedding of the interactive coin-viewer engine (DieStudyVis.py):
viewport transforms (scroll zoom, drag pan), the click/drag interaction
state machine, categorical color assignment, and glyph construction.
Coordinates are modelled as rationals; events carry the data the toolkit
hands to each handler. The definitions below follow the handlers and the
plotting routine of the source; the theorems after them settle the spec's
claims about those handlers.
-/

namespace DieStudyVis

/-- The visible data-space rectangle: the axes' x-limits and y-limits. -/
structure Viewport where
  xMin : ℚ
  xMax : ℚ
  yMin : ℚ
  yMax : ℚ
deriving DecidableEq, Repr

/-- The wheel direction reported by a scroll event. -/
inductive WheelButton
  | up
  | down
  | other
deriving DecidableEq, Repr

/-- The scale factor chosen in the scroll handler from its base scale 1.2:
wheel-up gives the reciprocal of the base scale, wheel-down gives the base
scale, anything else gives 1. -/
def scaleFactor : WheelButton → ℚ
  | .up => 1 / (6/5)
  | .down => 6/5
  | .other => 1

/-- A scroll event: wheel direction plus the cursor's data coordinates,
which the toolkit leaves unset when the pointer is outside the axes. -/
structure ScrollEvent where
  button : WheelButton
  xdata : Option ℚ
  ydata : Option ℚ

/-- The scroll handler: if either cursor coordinate is unset, return
unchanged; otherwise set the new limits to the cursor position plus/minus
half the scaled current range on each axis. -/
def on_scroll (vp : Viewport) (e : ScrollEvent) : Viewport :=
  match e.xdata, e.ydata with
  | some xd, some yd =>
      let xRange := vp.xMax - vp.xMin
      let yRange := vp.yMax - vp.yMin
      let sf := scaleFactor e.button
      { xMin := xd - xRange * sf / 2
        xMax := xd + xRange * sf / 2
        yMin := yd - yRange * sf / 2
        yMax := yd + yRange * sf / 2 }
  | _, _ => vp

/-- A pointer event as delivered to the press/motion handlers: button id,
whether the pointer is over the axes, and its data coordinates (only
meaningful when it is over the axes). -/
structure MouseEvent where
  button : Nat
  inaxes : Bool
  xdata : ℚ
  ydata : ℚ
deriving DecidableEq, Repr

/-- The viewer's mutable interaction state: the live viewport, the
suppress-next-drag flag set by a pick, the dragging flag, the press-time
cursor position, and the press-time snapshot of the axis limits. -/
structure AppState where
  viewport : Viewport
  suppressNextDrag : Bool
  isDragging : Bool
  dragStart : ℚ × ℚ
  limStart : Viewport
deriving DecidableEq, Repr

/-- The press handler: a set suppress-flag consumes the flag and drops the
press; otherwise a primary-button press inside the axes starts a drag,
recording the cursor position and snapshotting the current limits. -/
def on_press (s : AppState) (e : MouseEvent) : AppState :=
  if s.suppressNextDrag then
    { s with suppressNextDrag := false }
  else if e.button = 1 ∧ e.inaxes = true then
    { s with isDragging := true
             dragStart := (e.xdata, e.ydata)
             limStart := s.viewport }
  else s

/-- The motion handler: while dragging, a motion inside the axes whose
coordinates are both truthy (nonzero — the handler tests the floats for
truthiness, not only for None) shifts the snapshot limits by minus the
delta from the press point. -/
def on_motion (s : AppState) (e : MouseEvent) : AppState :=
  if s.isDragging = true ∧ e.inaxes = true ∧ e.xdata ≠ 0 ∧ e.ydata ≠ 0 then
    let dx := e.xdata - s.dragStart.1
    let dy := e.ydata - s.dragStart.2
    { s with viewport :=
        { xMin := s.limStart.xMin - dx
          xMax := s.limStart.xMax - dx
          yMin := s.limStart.yMin - dy
          yMax := s.limStart.yMax - dy } }
  else s

/-- The release handler: unconditionally ends any drag. -/
def on_release (s : AppState) : AppState :=
  { s with isDragging := false }

/-- The motion handler's event guard, apart from the dragging flag: the
pointer is over the axes and both coordinates are truthy (nonzero). -/
def acceptsMotion (m : MouseEvent) : Bool :=
  m.inaxes && decide (m.xdata ≠ 0) && decide (m.ydata ≠ 0)

/-- The loaded table: column names plus rows of cells, one cell per column. -/
structure Table where
  columns : List String
  rows : List (List String)
deriving DecidableEq, Repr

/-- Reading one labelled cell of a row, as the pandas row lookup does:
a missing column label raises a KeyError carrying the label. -/
def Table.cell (df : Table) (row : List String) (c : String) : Except String String :=
  match df.columns.indexOf? c with
  | some j => .ok (row.getD j "")
  | none => .error c

/-- A pick event: the button of the underlying mouse event and the gid the
picked artist carries (the source row index). -/
structure PickEvent where
  mouseButton : Nat
  gid : Nat
deriving DecidableEq, Repr

/-- The message body the pick handler builds: look the row up by position,
then read its name, obverse_group and reverse_group cells in that order;
the first failing lookup propagates as the raised error. -/
def coinInfoMsg (df : Table) (ind : Nat) : Except String String :=
  match df.rows.get? ind with
  | none => .error "iloc"
  | some row =>
      match df.cell row "name" with
      | .error e => .error e
      | .ok n =>
          match df.cell row "obverse_group" with
          | .error e => .error e
          | .ok o =>
              match df.cell row "reverse_group" with
              | .error e => .error e
              | .ok r =>
                  .ok ("Name: " ++ n ++ "\nObverse Group: " ++ o ++
                       "\nReverse Group: " ++ r)

/-- The pick handler: a non-primary button is ignored; otherwise the
suppress-next-drag flag is set first and then the info message is built,
which can fail — the flag stays set on failure. The second component is
the displayed message (or the raised error). -/
def on_click (s : AppState) (df : Table) (e : PickEvent) :
    AppState × Except String (Option String) :=
  if e.mouseButton ≠ 1 then (s, .ok none)
  else
    let s1 := { s with suppressNextDrag := true }
    match coinInfoMsg df e.gid with
    | .ok m => (s1, .ok (some m))
    | .error err => (s1, .error err)

/-- Whether an Except value is a success. -/
def exceptOk {ε α : Type} : Except ε α → Bool
  | .ok _ => true
  | .error _ => false

/-- The input events the controller consumes. -/
inductive Ev
  | press (e : MouseEvent)
  | motion (e : MouseEvent)
  | release
  | scroll (e : ScrollEvent)
  | pick (e : PickEvent)

/-- Dispatch of one event to its handler. -/
def step (df : Table) (s : AppState) : Ev → AppState
  | .press e => on_press s e
  | .motion e => on_motion s e
  | .release => on_release s
  | .scroll e => { s with viewport := on_scroll s.viewport e }
  | .pick e => (on_click s df e).1

/-- Processing a sequence of events in arrival order. -/
def run (df : Table) (s : AppState) (evs : List Ev) : AppState :=
  evs.foldl (step df) s

/-- One step of the distinct-value accumulation: keep the accumulator if
the value was already seen, else append it at the end. -/
def addDistinct (acc : List String) (v : String) : List String :=
  if v ∈ acc then acc else acc ++ [v]

/-- The distinct values of a column in first-occurrence order, as the
pandas unique() call returns them. -/
def uniqueList (l : List String) : List String :=
  l.foldl addDistinct []

/-- The position of the first occurrence of a value in a list. -/
def firstIndexOf (v : String) : List String → Option Nat
  | [] => none
  | a :: rest => if a = v then some 0 else (firstIndexOf v rest).map (· + 1)

/-- The categorical color dictionary: each distinct value of the column,
enumerated in first-occurrence order, is paired with the palette color at
its enumeration index; values outside the column are not keys. -/
def colorMap (values palette : List String) (v : String) : Option String :=
  match firstIndexOf v (uniqueList values) with
  | some i => palette.get? i
  | none => none

/-- One half-disc patch: center, radius, start and end angles, fill color,
and the gid recording the source row index. -/
structure Glyph where
  center : ℚ × ℚ
  radius : ℚ
  theta1 : ℚ
  theta2 : ℚ
  facecolor : String
  gid : Nat
deriving DecidableEq, Repr

/-- The plotting loop: for the i-th row tuple, emit the left (obverse)
half over angles 90–270 and the right (reverse) half over angles 270–90,
both centered at the row's point with radius 1/10 and gid i. -/
def buildGlyphsFrom (obvMap revMap : String → String) :
    Nat → List ((ℚ × ℚ) × (String × String)) → List Glyph
  | _, [] => []
  | i, ((xi, yi), (o, r)) :: rest =>
      { center := (xi, yi), radius := 1/10, theta1 := 90, theta2 := 270,
        facecolor := obvMap o, gid := i } ::
      { center := (xi, yi), radius := 1/10, theta1 := 270, theta2 := 90,
        facecolor := revMap r, gid := i } ::
      buildGlyphsFrom obvMap revMap (i + 1) rest

/-- Glyph construction for the whole dataset: build one color dictionary
per categorical column, each over a palette generated for the column's
distinct-value count (the two palette generators model the two seaborn
palettes), then zip the four columns and run the plotting loop. -/
def buildGlyphs (xs ys : List ℚ) (obvs revs : List String)
    (obvPalGen revPalGen : Nat → List String) : List Glyph :=
  let obvPalette := obvPalGen (uniqueList obvs).length
  let revPalette := revPalGen (uniqueList revs).length
  let obvMap := fun v => (colorMap obvs obvPalette v).getD ""
  let revMap := fun v => (colorMap revs revPalette v).getD ""
  buildGlyphsFrom obvMap revMap 0 ((xs.zip ys).zip (obvs.zip revs))

/-- The four column selectors; an unset selector reads as the empty string. -/
structure Selections where
  x_col : String
  y_col : String
  obv_col : String
  rev_col : String
deriving DecidableEq, Repr

/-- The scene state the plot routine owns: the built glyphs and the
viewport. -/
structure PlotState where
  scene : List Glyph
  viewport : Viewport
deriving DecidableEq, Repr

/-- The plot routine: if any of the four selectors is unset it returns at
once (the not-configured case); otherwise it rebuilds the glyphs and
autoscales the viewport to them (the autoscale computation itself lives in
the plotting library and is a parameter here). -/
def plot_coins (autoscale : List Glyph → Viewport) (sel : Selections)
    (xs ys : List ℚ) (obvs revs : List String)
    (obvPalGen revPalGen : Nat → List String) (st : PlotState) : PlotState :=
  if sel.x_col = "" ∨ sel.y_col = "" ∨ sel.obv_col = "" ∨ sel.rev_col = "" then
    st
  else
    let glyphs := buildGlyphs xs ys obvs revs obvPalGen revPalGen
    { scene := glyphs, viewport := autoscale glyphs }

/-- Whether a glyph is a right (reverse) half: its start angle is 270. -/
def isRightHalf (g : Glyph) : Bool :=
  decide (g.theta1 = 270)

/-- Whether a glyph is a left (obverse) half: its start angle is 90. -/
def isLeftHalf (g : Glyph) : Bool :=
  decide (g.theta1 = 90)

/-- A glyph with its fill color blanked, for comparisons that ignore the
color. -/
def eraseColor (g : Glyph) : Glyph :=
  { g with facecolor := "" }

/-!
Theorems. The first group settles the scroll-zoom claims, then the drag
state machine, the pick handler, and finally color assignment and glyph
construction.
-/

/-- Claim C7: from viewport [0,10]×[0,10], a wheel-up scroll at cursor
data-coordinates (5,5) yields exactly [5/6, 55/6] on both axes. -/
theorem scroll_up_center_scenario :
    on_scroll ⟨0, 10, 0, 10⟩ ⟨WheelButton.up, some 5, some 5⟩ =
      ⟨5/6, 55/6, 5/6, 55/6⟩ := by
  norm_num [on_scroll, scaleFactor, Viewport.mk.injEq]

/-- Claim C1 fails as stated: from viewport [0,10]×[0,10], wheel-up at
cursor (2,2) does not satisfy xMin_new = cursorDataX - (cursorDataX - xMin_old)·factor
(the code gives -13/6, the claimed formula gives 1/3). -/
theorem zoom_not_around_cursor :
    (on_scroll ⟨0, 10, 0, 10⟩ ⟨WheelButton.up, some 2, some 2⟩).xMin ≠
      2 - (2 - 0) * (5/6) := by
  norm_num [on_scroll, scaleFactor]

/-- Claim C1 (amended): a wheel-up scroll with valid cursor coordinates
re-centers the viewport on the cursor with both ranges scaled by 5/6:
each new bound is the cursor coordinate plus/minus half the scaled old
range (so the cursor's data point keeps its screen position only when it
was at the viewport center). -/
theorem zoom_up_recenters (vp : Viewport) (xd yd : ℚ) :
    on_scroll vp ⟨WheelButton.up, some xd, some yd⟩ =
      { xMin := xd - (vp.xMax - vp.xMin) * (5/6) / 2
        xMax := xd + (vp.xMax - vp.xMin) * (5/6) / 2
        yMin := yd - (vp.yMax - vp.yMin) * (5/6) / 2
        yMax := yd + (vp.yMax - vp.yMin) * (5/6) / 2 } := by
  simp only [on_scroll, scaleFactor]
  norm_num

/-- Claim C2 fails as stated: a scroll event whose wheel signal is neither
up nor down is not a no-op: from viewport [0,10]×[0,10] with the cursor at
(2,2) it moves the viewport to [-3,7]×[-3,7]. -/
theorem scroll_other_not_noop :
    on_scroll ⟨0, 10, 0, 10⟩ ⟨WheelButton.other, some 2, some 2⟩ ≠
      ⟨0, 10, 0, 10⟩ := by
  norm_num [on_scroll, scaleFactor, Viewport.mk.injEq]

/-- Claim C2 (amended): wheel-up applies scale factor 1/1.2, wheel-down
applies 1.2, and any other wheel signal applies factor 1 — but the factor-1
case still re-centers the viewport on the cursor (each bound becomes the
cursor coordinate plus/minus half the unscaled range), so the viewport is
unchanged only when the cursor sits at the viewport center. -/
theorem scroll_factors_and_other_recenters :
    scaleFactor WheelButton.up = 5/6 ∧
    scaleFactor WheelButton.down = 6/5 ∧
    scaleFactor WheelButton.other = 1 ∧
    ∀ (vp : Viewport) (xd yd : ℚ),
      on_scroll vp ⟨WheelButton.other, some xd, some yd⟩ =
        { xMin := xd - (vp.xMax - vp.xMin) / 2
          xMax := xd + (vp.xMax - vp.xMin) / 2
          yMin := yd - (vp.yMax - vp.yMin) / 2
          yMax := yd + (vp.yMax - vp.yMin) / 2 } := by
  refine ⟨by norm_num [scaleFactor], by norm_num [scaleFactor], rfl, ?_⟩
  intro vp xd yd
  simp only [on_scroll, scaleFactor]
  norm_num

/-- Claim C10: during an active drag, a motion event inside the axes with
an x or y data-coordinate equal to 0 leaves the whole state, and in
particular the viewport, unchanged — the truthiness test treats it like an
out-of-bounds event. -/
theorem motion_zero_coordinate_noop (s : AppState) (e : MouseEvent)
    (_hdrag : s.isDragging = true) (_hin : e.inaxes = true)
    (hzero : e.xdata = 0 ∨ e.ydata = 0) :
    on_motion s e = s := by
  unfold on_motion
  rw [if_neg]
  rintro ⟨-, -, hx, hy⟩
  rcases hzero with h | h
  · exact hx h
  · exact hy h

/-- Witness for C10 at a concrete dragging state and a motion event whose
x-coordinate is exactly 0. -/
theorem motion_zero_coordinate_noop_witness :
    on_motion ⟨⟨0, 10, 0, 10⟩, false, true, (2, 2), ⟨0, 10, 0, 10⟩⟩
      ⟨1, true, 0, 5⟩ =
      ⟨⟨0, 10, 0, 10⟩, false, true, (2, 2), ⟨0, 10, 0, 10⟩⟩ :=
  motion_zero_coordinate_noop _ _ rfl rfl (Or.inl rfl)

lemma on_motion_not_dragging (s : AppState) (m : MouseEvent)
    (h : s.isDragging = false) : on_motion s m = s := by
  unfold on_motion
  rw [if_neg]
  rintro ⟨hd, -⟩
  rw [h] at hd
  exact Bool.false_ne_true hd

lemma run_motions_not_dragging (df : Table) :
    ∀ (ms : List MouseEvent) (s : AppState), s.isDragging = false →
      run df s (ms.map Ev.motion) = s := by
  intro ms
  induction ms with
  | nil => intro s _; rfl
  | cons m ms ih =>
      intro s hs
      show run df (on_motion s m) (ms.map Ev.motion) = s
      rw [on_motion_not_dragging s m hs]
      exact ih s hs

lemma on_click_state (s : AppState) (df : Table) (e : PickEvent)
    (hb : e.mouseButton = 1) :
    (on_click s df e).1 = { s with suppressNextDrag := true } := by
  unfold on_click
  rw [if_neg (by simp [hb])]
  cases hm : coinInfoMsg df e.gid <;> simp [hm]

/-- Claim C4: from a state that is not mid-drag, a primary-button pick
followed by a press leaves the viewport unchanged, clears the suppression
flag, and starts no drag; any motion events delivered before the next
press also leave the viewport unchanged. -/
theorem pick_suppresses_next_press (df : Table) (s : AppState)
    (pk : PickEvent) (pe : MouseEvent) (ms : List MouseEvent)
    (hnd : s.isDragging = false) (hb : pk.mouseButton = 1) :
    (run df s [Ev.pick pk, Ev.press pe]).viewport = s.viewport ∧
    (run df s [Ev.pick pk, Ev.press pe]).suppressNextDrag = false ∧
    (run df s [Ev.pick pk, Ev.press pe]).isDragging = false ∧
    (run df s (Ev.pick pk :: Ev.press pe :: ms.map Ev.motion)).viewport =
      s.viewport := by
  have hpick : step df s (Ev.pick pk) = { s with suppressNextDrag := true } :=
    on_click_state s df pk hb
  have hpress :
      step df { s with suppressNextDrag := true } (Ev.press pe) =
        { s with suppressNextDrag := false } := by
    show on_press { s with suppressNextDrag := true } pe = _
    unfold on_press
    rw [if_pos rfl]
  have hstate : run df s [Ev.pick pk, Ev.press pe] =
      { s with suppressNextDrag := false } := by
    show step df (step df s (Ev.pick pk)) (Ev.press pe) = _
    rw [hpick, hpress]
  have hmot : run df s (Ev.pick pk :: Ev.press pe :: ms.map Ev.motion) =
      { s with suppressNextDrag := false } := by
    show run df (step df (step df s (Ev.pick pk)) (Ev.press pe)) (ms.map Ev.motion) = _
    rw [hpick, hpress]
    exact run_motions_not_dragging df ms _ hnd
  rw [hstate, hmot]
  exact ⟨rfl, rfl, hnd, rfl⟩

/-- Witness for C4: a pick then a press then one motion event, from an
idle state with viewport [0,10]×[0,10]. -/
theorem pick_suppresses_next_press_witness :
    (run ⟨[], []⟩ ⟨⟨0, 10, 0, 10⟩, false, false, (0, 0), ⟨0, 0, 0, 0⟩⟩
        [Ev.pick ⟨1, 0⟩, Ev.press ⟨1, true, 2, 2⟩]).viewport = ⟨0, 10, 0, 10⟩ ∧
    (run ⟨[], []⟩ ⟨⟨0, 10, 0, 10⟩, false, false, (0, 0), ⟨0, 0, 0, 0⟩⟩
        [Ev.pick ⟨1, 0⟩, Ev.press ⟨1, true, 2, 2⟩]).suppressNextDrag = false ∧
    (run ⟨[], []⟩ ⟨⟨0, 10, 0, 10⟩, false, false, (0, 0), ⟨0, 0, 0, 0⟩⟩
        [Ev.pick ⟨1, 0⟩, Ev.press ⟨1, true, 2, 2⟩]).isDragging = false ∧
    (run ⟨[], []⟩ ⟨⟨0, 10, 0, 10⟩, false, false, (0, 0), ⟨0, 0, 0, 0⟩⟩
        (Ev.pick ⟨1, 0⟩ :: Ev.press ⟨1, true, 2, 2⟩ ::
          [MouseEvent.mk 1 true 3 4].map Ev.motion)).viewport = ⟨0, 10, 0, 10⟩ :=
  pick_suppresses_next_press ⟨[], []⟩ _ _ _ _ rfl rfl

lemma on_motion_dragging (s : AppState) (m : MouseEvent)
    (hd : s.isDragging = true) (hin : m.inaxes = true)
    (hx : m.xdata ≠ 0) (hy : m.ydata ≠ 0) :
    on_motion s m = { s with viewport :=
      { xMin := s.limStart.xMin - (m.xdata - s.dragStart.1)
        xMax := s.limStart.xMax - (m.xdata - s.dragStart.1)
        yMin := s.limStart.yMin - (m.ydata - s.dragStart.2)
        yMax := s.limStart.yMax - (m.ydata - s.dragStart.2) } } := by
  unfold on_motion
  rw [if_pos ⟨hd, hin, hx, hy⟩]

lemma acceptsMotion_spec (m : MouseEvent) (hm : acceptsMotion m = true) :
    m.inaxes = true ∧ m.xdata ≠ 0 ∧ m.ydata ≠ 0 := by
  unfold acceptsMotion at hm
  simp only [Bool.and_eq_true, decide_eq_true_eq] at hm
  exact ⟨hm.1.1, hm.1.2, hm.2⟩

lemma on_motion_rejected (s : AppState) (m : MouseEvent)
    (hm : acceptsMotion m = false) : on_motion s m = s := by
  unfold on_motion
  rw [if_neg]
  rintro ⟨-, hin, hx, hy⟩
  unfold acceptsMotion at hm
  rw [hin, decide_eq_true hx, decide_eq_true hy] at hm
  simp at hm

lemma run_motions_all_rejected (df : Table) :
    ∀ (ms : List MouseEvent) (s : AppState),
      (∀ m ∈ ms, acceptsMotion m = false) →
      run df s (ms.map Ev.motion) = s := by
  intro ms
  induction ms with
  | nil => intro s _; rfl
  | cons m ms ih =>
      intro s h
      show run df (on_motion s m) (ms.map Ev.motion) = s
      rw [on_motion_rejected s m (h m (List.mem_cons_self m ms))]
      exact ih s (fun x hx => h x (List.mem_cons_of_mem m hx))

lemma run_motions_dragging_filter (df : Table) :
    ∀ (ms : List MouseEvent) (s : AppState) (q : MouseEvent),
      s.isDragging = true →
      (ms.filter acceptsMotion).getLast? = some q →
      run df s (ms.map Ev.motion) = { s with viewport :=
        { xMin := s.limStart.xMin - (q.xdata - s.dragStart.1)
          xMax := s.limStart.xMax - (q.xdata - s.dragStart.1)
          yMin := s.limStart.yMin - (q.ydata - s.dragStart.2)
          yMax := s.limStart.yMax - (q.ydata - s.dragStart.2) } } := by
  intro ms
  induction ms with
  | nil => intro s q _ hlast; cases hlast
  | cons m ms ih =>
      intro s q hd hlast
      show run df (on_motion s m) (ms.map Ev.motion) = _
      cases hacc : acceptsMotion m with
      | false =>
          rw [on_motion_rejected s m hacc]
          rw [List.filter_cons_of_neg (by simp [hacc])] at hlast
          exact ih s q hd hlast
      | true =>
          obtain ⟨hin, hx, hy⟩ := acceptsMotion_spec m hacc
          rw [on_motion_dragging s m hd hin hx hy]
          rw [List.filter_cons_of_pos hacc] at hlast
          cases hfil : ms.filter acceptsMotion with
          | nil =>
              rw [hfil] at hlast
              have hq : m = q := by
                simpa using hlast
              subst hq
              have hrej : ∀ x ∈ ms, acceptsMotion x = false := fun x hx =>
                Bool.eq_false_iff.mpr (List.filter_eq_nil_iff.mp hfil x hx)
              rw [run_motions_all_rejected df ms _ hrej]
          | cons a as =>
              rw [hfil] at hlast
              rw [List.getLast?_cons_cons] at hlast
              rw [← hfil] at hlast
              exact ih _ q hd hlast

/-- Claim C3 fails as stated: press at (2,2), motions to (3,4) then to
(0,5) (both inside the axes), release, from viewport [0,10]×[0,10]. The
last motion point is (0,5), so the claim demands the snapshot translated
by -((0,5) - (2,2)), i.e. [2,12]×[-3,7]; the code drops the x = 0 motion
through its truthiness guard and leaves the viewport at [-1,9]×[-2,8]. -/
theorem drag_last_zero_motion_not_translation :
    (run ⟨[], []⟩ ⟨⟨0, 10, 0, 10⟩, false, false, (0, 0), ⟨0, 0, 0, 0⟩⟩
        (Ev.press ⟨1, true, 2, 2⟩ ::
          [MouseEvent.mk 1 true 3 4, MouseEvent.mk 1 true 0 5].map Ev.motion ++
            [Ev.release])).viewport ≠
      ⟨0 - (0 - 2), 10 - (0 - 2), 0 - (5 - 2), 10 - (5 - 2)⟩ := by
  have hpress :
      on_press ⟨⟨0, 10, 0, 10⟩, false, false, (0, 0), ⟨0, 0, 0, 0⟩⟩
          ⟨1, true, 2, 2⟩ =
        ⟨⟨0, 10, 0, 10⟩, false, true, (2, 2), ⟨0, 10, 0, 10⟩⟩ := by
    unfold on_press
    rw [if_neg (by simp), if_pos ⟨rfl, rfl⟩]
  have hmot := run_motions_dragging_filter ⟨[], []⟩
    [MouseEvent.mk 1 true 3 4, MouseEvent.mk 1 true 0 5]
    ⟨⟨0, 10, 0, 10⟩, false, true, (2, 2), ⟨0, 10, 0, 10⟩⟩
    ⟨1, true, 3, 4⟩ rfl (by decide)
  have h1 : run ⟨[], []⟩ ⟨⟨0, 10, 0, 10⟩, false, false, (0, 0), ⟨0, 0, 0, 0⟩⟩
      (Ev.press ⟨1, true, 2, 2⟩ ::
        [MouseEvent.mk 1 true 3 4, MouseEvent.mk 1 true 0 5].map Ev.motion ++
          [Ev.release]) =
      run ⟨[], []⟩
        (run ⟨[], []⟩
          (on_press ⟨⟨0, 10, 0, 10⟩, false, false, (0, 0), ⟨0, 0, 0, 0⟩⟩
            ⟨1, true, 2, 2⟩)
          ([MouseEvent.mk 1 true 3 4, MouseEvent.mk 1 true 0 5].map Ev.motion))
        [Ev.release] := by
    show run ⟨[], []⟩
        (on_press ⟨⟨0, 10, 0, 10⟩, false, false, (0, 0), ⟨0, 0, 0, 0⟩⟩
          ⟨1, true, 2, 2⟩)
        ([MouseEvent.mk 1 true 3 4, MouseEvent.mk 1 true 0 5].map Ev.motion ++
          [Ev.release]) = _
    exact List.foldl_append _ _ _ _
  rw [h1, hpress, hmot]
  show Viewport.mk (0 - (3 - 2)) (10 - (3 - 2)) (0 - (4 - 2)) (10 - (4 - 2)) ≠ _
  norm_num [Viewport.mk.injEq]

/-- Claim C3 (amended): a press at p (with the suppression flag clear)
followed by any sequence of motion events and a release leaves the
viewport equal to the press-time snapshot translated by -(q - p), where q
is the last motion event the motion handler accepts (inside the axes with
both coordinates nonzero, the handler's truthiness guard); rejected motion
events — outside the axes or with an x or y coordinate exactly 0 — are
dropped, and the number and positions of the other accepted motion events
do not affect the result. -/
theorem drag_net_translation (df : Table) (s : AppState) (pe : MouseEvent)
    (ms : List MouseEvent) (q : MouseEvent)
    (hsup : s.suppressNextDrag = false) (hb : pe.button = 1)
    (hin : pe.inaxes = true)
    (hlast : (ms.filter acceptsMotion).getLast? = some q) :
    (run df s (Ev.press pe :: ms.map Ev.motion ++ [Ev.release])).viewport =
      { xMin := s.viewport.xMin - (q.xdata - pe.xdata)
        xMax := s.viewport.xMax - (q.xdata - pe.xdata)
        yMin := s.viewport.yMin - (q.ydata - pe.ydata)
        yMax := s.viewport.yMax - (q.ydata - pe.ydata) } := by
  have hpress : on_press s pe =
      { s with isDragging := true
               dragStart := (pe.xdata, pe.ydata)
               limStart := s.viewport } := by
    unfold on_press
    rw [if_neg (by simp [hsup]), if_pos ⟨hb, hin⟩]
  have h1 : run df s (Ev.press pe :: ms.map Ev.motion ++ [Ev.release]) =
      run df (run df (on_press s pe) (ms.map Ev.motion)) [Ev.release] := by
    show run df (on_press s pe) (ms.map Ev.motion ++ [Ev.release]) = _
    exact List.foldl_append _ _ _ _
  rw [h1, hpress, run_motions_dragging_filter df ms _ q rfl hlast]
  rfl

/-- Witness for the amended C3: press at (2,2), a motion to (3,4), a
dropped motion to (0,5), release, from viewport [0,10]×[0,10]: the
viewport shifts by -((3,4) - (2,2)) = (-1,-2). -/
theorem drag_net_translation_witness :
    (run ⟨[], []⟩ ⟨⟨0, 10, 0, 10⟩, false, false, (0, 0), ⟨0, 0, 0, 0⟩⟩
        (Ev.press ⟨1, true, 2, 2⟩ ::
          [MouseEvent.mk 1 true 3 4, MouseEvent.mk 1 true 0 5].map Ev.motion ++
            [Ev.release])).viewport =
      ⟨0 - (3 - 2), 10 - (3 - 2), 0 - (4 - 2), 10 - (4 - 2)⟩ :=
  drag_net_translation ⟨[], []⟩ _ ⟨1, true, 2, 2⟩
    [⟨1, true, 3, 4⟩, ⟨1, true, 0, 5⟩] ⟨1, true, 3, 4⟩ rfl rfl rfl (by decide)

lemma indexOf?_ne_none_iff_mem (l : List String) (c : String) :
    l.indexOf? c ≠ none ↔ c ∈ l := by
  rw [Ne, List.indexOf?_eq_none_iff]
  constructor
  · intro h
    by_contra hc
    apply h
    intro x hx hbeq
    exact hc ((beq_iff_eq.mp hbeq) ▸ hx)
  · intro hc hall
    exact hall c hc (beq_iff_eq.mpr rfl)

lemma cell_ok_iff_mem (df : Table) (row : List String) (c : String) :
    exceptOk (df.cell row c) = true ↔ c ∈ df.columns := by
  rw [← indexOf?_ne_none_iff_mem df.columns c]
  unfold Table.cell
  cases h : df.columns.indexOf? c <;> simp [exceptOk, h]

lemma coinInfoMsg_isOk (df : Table) (ind : Nat) (hi : ind < df.rows.length) :
    exceptOk (coinInfoMsg df ind) = true ↔
      ("name" ∈ df.columns ∧ "obverse_group" ∈ df.columns ∧
        "reverse_group" ∈ df.columns) := by
  obtain ⟨row, hrow⟩ : ∃ row, df.rows.get? ind = some row :=
    ⟨_, List.get?_eq_get hi⟩
  unfold coinInfoMsg
  rw [hrow]
  rw [← cell_ok_iff_mem df row "name", ← cell_ok_iff_mem df row "obverse_group",
    ← cell_ok_iff_mem df row "reverse_group"]
  cases h1 : df.cell row "name" <;>
    cases h2 : df.cell row "obverse_group" <;>
      cases h3 : df.cell row "reverse_group" <;>
        simp [exceptOk, h1, h2, h3]

/-- Claim C9: a primary-button pick on a valid row index succeeds exactly
when the table has columns name, obverse_group, and reverse_group; whether
it succeeds or raises, the drag-suppression flag has been set. -/
theorem pick_requires_info_columns (s : AppState) (df : Table) (e : PickEvent)
    (hb : e.mouseButton = 1) (hi : e.gid < df.rows.length) :
    (exceptOk (on_click s df e).2 = true ↔
      ("name" ∈ df.columns ∧ "obverse_group" ∈ df.columns ∧
        "reverse_group" ∈ df.columns)) ∧
    (on_click s df e).1.suppressNextDrag = true := by
  constructor
  · rw [← coinInfoMsg_isOk df e.gid hi]
    unfold on_click
    rw [if_neg (by simp [hb])]
    cases hm : coinInfoMsg df e.gid <;> simp [hm, exceptOk]
  · rw [on_click_state s df e hb]

/-- Witness for C9 on a one-row table that carries the three inspection
columns. -/
theorem pick_requires_info_columns_witness :
    (exceptOk (on_click ⟨⟨0, 10, 0, 10⟩, false, false, (0, 0), ⟨0, 0, 0, 0⟩⟩
        ⟨["name", "obverse_group", "reverse_group"], [["d1", "O1", "R1"]]⟩
        ⟨1, 0⟩).2 = true ↔
      ("name" ∈ (Table.mk ["name", "obverse_group", "reverse_group"]
          [["d1", "O1", "R1"]]).columns ∧
        "obverse_group" ∈ (Table.mk ["name", "obverse_group", "reverse_group"]
          [["d1", "O1", "R1"]]).columns ∧
        "reverse_group" ∈ (Table.mk ["name", "obverse_group", "reverse_group"]
          [["d1", "O1", "R1"]]).columns)) ∧
    (on_click ⟨⟨0, 10, 0, 10⟩, false, false, (0, 0), ⟨0, 0, 0, 0⟩⟩
        ⟨["name", "obverse_group", "reverse_group"], [["d1", "O1", "R1"]]⟩
        ⟨1, 0⟩).1.suppressNextDrag = true :=
  pick_requires_info_columns _ _ _ rfl (by decide)

lemma addDistinct_nodup (acc : List String) (v : String) (h : acc.Nodup) :
    (addDistinct acc v).Nodup := by
  unfold addDistinct
  split
  · exact h
  · next hv => simp [List.nodup_append, h, hv]

lemma foldl_addDistinct_nodup :
    ∀ (l acc : List String), acc.Nodup → (l.foldl addDistinct acc).Nodup := by
  intro l
  induction l with
  | nil => intro acc h; exact h
  | cons v l ih =>
      intro acc h
      show (l.foldl addDistinct (addDistinct acc v)).Nodup
      exact ih (addDistinct acc v) (addDistinct_nodup acc v h)

lemma uniqueList_nodup (l : List String) : (uniqueList l).Nodup :=
  foldl_addDistinct_nodup l [] List.nodup_nil

lemma mem_addDistinct_of_mem (acc : List String) (w v : String)
    (h : v ∈ acc) : v ∈ addDistinct acc w := by
  unfold addDistinct
  split
  · exact h
  · exact List.mem_append_left _ h

lemma self_mem_addDistinct (acc : List String) (v : String) :
    v ∈ addDistinct acc v := by
  unfold addDistinct
  split
  · assumption
  · exact List.mem_append_right _ (List.mem_singleton_self v)

lemma mem_foldl_addDistinct :
    ∀ (l acc : List String) (v : String),
      v ∈ acc ∨ v ∈ l → v ∈ l.foldl addDistinct acc := by
  intro l
  induction l with
  | nil =>
      intro acc v h
      rcases h with h | h
      · exact h
      · cases h
  | cons w l ih =>
      intro acc v h
      show v ∈ l.foldl addDistinct (addDistinct acc w)
      apply ih
      rcases h with h | h
      · exact Or.inl (mem_addDistinct_of_mem acc w v h)
      · rcases List.mem_cons.mp h with rfl | h
        · exact Or.inl (self_mem_addDistinct acc v)
        · exact Or.inr h

lemma uniqueList_append_dup (l₁ l₂ : List String) (v : String) (h : v ∈ l₁) :
    uniqueList (l₁ ++ v :: l₂) = uniqueList (l₁ ++ l₂) := by
  unfold uniqueList
  rw [List.foldl_append, List.foldl_append]
  show l₂.foldl addDistinct (addDistinct (l₁.foldl addDistinct []) v) = _
  have hv : v ∈ l₁.foldl addDistinct [] :=
    mem_foldl_addDistinct l₁ [] v (Or.inr h)
  rw [show addDistinct (l₁.foldl addDistinct []) v = l₁.foldl addDistinct []
    from if_pos hv]

lemma firstIndexOf_get :
    ∀ (l : List String), l.Nodup → ∀ (i : Nat) (h : i < l.length),
      firstIndexOf (l.get ⟨i, h⟩) l = some i := by
  intro l
  induction l with
  | nil => intro _ i h; exact absurd h (Nat.not_lt_zero i)
  | cons a rest ih =>
      intro hnd i h
      cases i with
      | zero =>
          show firstIndexOf a (a :: rest) = some 0
          unfold firstIndexOf
          rw [if_pos rfl]
      | succ i =>
          have hi : i < rest.length := Nat.lt_of_succ_lt_succ h
          show firstIndexOf (rest.get ⟨i, hi⟩) (a :: rest) = some (i + 1)
          unfold firstIndexOf
          rw [if_neg, ih (List.Nodup.of_cons hnd) i hi]
          · rfl
          · intro heq
            exact (List.nodup_cons.mp hnd).1 (heq ▸ List.get_mem rest i hi)

/-- Claim C5: duplicate occurrences consume no palette slot (removing a
repeated value does not change the distinct-value list); the distinct
value at first-occurrence position i is mapped to the palette color at
index i (so every occurrence of a value resolves to that same color); and
on values A,B,A with palette [red, blue] the dictionary is exactly
A ↦ red, B ↦ blue. -/
theorem color_assignment_first_seen :
    (∀ (l₁ l₂ : List String) (v : String), v ∈ l₁ →
      uniqueList (l₁ ++ v :: l₂) = uniqueList (l₁ ++ l₂)) ∧
    (∀ (values palette : List String) (i : Nat)
      (h : i < (uniqueList values).length),
      colorMap values palette ((uniqueList values).get ⟨i, h⟩) =
        palette.get? i) ∧
    colorMap ["A", "B", "A"] ["red", "blue"] "A" = some "red" ∧
    colorMap ["A", "B", "A"] ["red", "blue"] "B" = some "blue" := by
  refine ⟨uniqueList_append_dup, ?_, rfl, rfl⟩
  intro values palette i h
  unfold colorMap
  rw [firstIndexOf_get (uniqueList values) (uniqueList_nodup values) i h]

/-- Witness for C5: a duplicate "A" consumes no slot, and the distinct
value at position 1 of A,B,A receives the palette color at index 1. -/
theorem color_assignment_first_seen_witness :
    uniqueList (["A"] ++ "A" :: []) = uniqueList (["A"] ++ []) ∧
    colorMap ["A", "B", "A"] ["red", "blue"]
        ((uniqueList ["A", "B", "A"]).get ⟨1, by decide⟩) =
      ["red", "blue"].get? 1 :=
  ⟨color_assignment_first_seen.1 ["A"] [] "A" (by decide),
    color_assignment_first_seen.2.1 ["A", "B", "A"] ["red", "blue"] 1 (by decide)⟩

/-- Claim C6: when any of the four column selectors is unset, the plot
routine returns the scene and viewport exactly as they were: no glyphs are
built and no error is raised. -/
theorem plot_coins_not_configured (autoscale : List Glyph → Viewport)
    (sel : Selections) (xs ys : List ℚ) (obvs revs : List String)
    (obvPalGen revPalGen : Nat → List String) (st : PlotState)
    (h : sel.x_col = "" ∨ sel.y_col = "" ∨ sel.obv_col = "" ∨ sel.rev_col = "") :
    plot_coins autoscale sel xs ys obvs revs obvPalGen revPalGen st = st := by
  unfold plot_coins
  rw [if_pos h]

/-- Witness for C6 with an unset x selector. -/
theorem plot_coins_not_configured_witness :
    plot_coins (fun _ => ⟨0, 1, 0, 1⟩) ⟨"", "a", "b", "c"⟩ [] [] [] []
      (fun _ => []) (fun _ => []) ⟨[], ⟨0, 1, 0, 1⟩⟩ = ⟨[], ⟨0, 1, 0, 1⟩⟩ :=
  plot_coins_not_configured _ _ _ _ _ _ _ _ _ (Or.inl rfl)

lemma isRightHalf_left_glyph (c : ℚ × ℚ) (col : String) (i : Nat) :
    isRightHalf ⟨c, 1/10, 90, 270, col, i⟩ = false := by
  unfold isRightHalf
  exact decide_eq_false (by norm_num)

lemma isRightHalf_right_glyph (c : ℚ × ℚ) (col : String) (i : Nat) :
    isRightHalf ⟨c, 1/10, 270, 90, col, i⟩ = true :=
  decide_eq_true rfl

lemma isLeftHalf_left_glyph (c : ℚ × ℚ) (col : String) (i : Nat) :
    isLeftHalf ⟨c, 1/10, 90, 270, col, i⟩ = true :=
  decide_eq_true rfl

lemma isLeftHalf_right_glyph (c : ℚ × ℚ) (col : String) (i : Nat) :
    isLeftHalf ⟨c, 1/10, 270, 90, col, i⟩ = false := by
  unfold isLeftHalf
  exact decide_eq_false (by norm_num)

lemma filter_right_cons_pair (c : ℚ × ℚ) (colL colR : String) (i : Nat)
    (rest : List Glyph) :
    List.filter isRightHalf
      (⟨c, 1/10, 90, 270, colL, i⟩ :: ⟨c, 1/10, 270, 90, colR, i⟩ :: rest) =
      ⟨c, 1/10, 270, 90, colR, i⟩ :: List.filter isRightHalf rest := by
  rw [List.filter_cons, List.filter_cons, isRightHalf_left_glyph,
    isRightHalf_right_glyph]
  simp

lemma filter_left_cons_pair (c : ℚ × ℚ) (colL colR : String) (i : Nat)
    (rest : List Glyph) :
    List.filter isLeftHalf
      (⟨c, 1/10, 90, 270, colL, i⟩ :: ⟨c, 1/10, 270, 90, colR, i⟩ :: rest) =
      ⟨c, 1/10, 90, 270, colL, i⟩ :: List.filter isLeftHalf rest := by
  rw [List.filter_cons, List.filter_cons, isLeftHalf_left_glyph,
    isLeftHalf_right_glyph]
  simp

lemma buildGlyphsFrom_obv_independent :
    ∀ (zs : List (ℚ × ℚ)) (obvs obvs' revs : List String) (i : Nat)
      (oM oM' rM : String → String),
      obvs.length = obvs'.length →
      ((buildGlyphsFrom oM rM i (zs.zip (obvs.zip revs))).filter isRightHalf =
        (buildGlyphsFrom oM' rM i (zs.zip (obvs'.zip revs))).filter isRightHalf) ∧
      (((buildGlyphsFrom oM rM i (zs.zip (obvs.zip revs))).filter isLeftHalf).map
          eraseColor =
        ((buildGlyphsFrom oM' rM i (zs.zip (obvs'.zip revs))).filter isLeftHalf).map
          eraseColor) := by
  intro zs
  induction zs with
  | nil => intro obvs obvs' revs i oM oM' rM _; exact ⟨rfl, rfl⟩
  | cons z zs ih =>
      intro obvs obvs' revs i oM oM' rM hlen
      obtain ⟨xi, yi⟩ := z
      cases obvs with
      | nil =>
          cases obvs' with
          | nil => exact ⟨rfl, rfl⟩
          | cons o' os' => cases hlen
      | cons o os =>
          cases obvs' with
          | nil => cases hlen
          | cons o' os' =>
              have hlen' : os.length = os'.length := by
                simpa using hlen
              cases revs with
              | nil => exact ⟨rfl, rfl⟩
              | cons r rs =>
                  have hih := ih os os' rs (i + 1) oM oM' rM hlen'
                  simp only [List.zip] at hih
                  simp only [List.zip_cons_cons, buildGlyphsFrom]
                  constructor
                  · rw [filter_right_cons_pair, filter_right_cons_pair, hih.1]
                  · rw [filter_left_cons_pair, filter_left_cons_pair,
                      List.map_cons, List.map_cons, hih.2]
                    rfl

/-- Claim C8: rebuilding the glyphs with a different obverse column (same
row count, same reverse column and palettes) leaves every right (reverse)
half exactly as before — position, color, gid — and changes the left
(obverse) halves at most in their fill color. -/
theorem rebuild_obverse_preserves_reverse
    (xs ys : List ℚ) (obvs obvs' revs : List String)
    (obvPalGen revPalGen : Nat → List String)
    (hlen : obvs.length = obvs'.length) :
    ((buildGlyphs xs ys obvs revs obvPalGen revPalGen).filter isRightHalf =
      (buildGlyphs xs ys obvs' revs obvPalGen revPalGen).filter isRightHalf) ∧
    (((buildGlyphs xs ys obvs revs obvPalGen revPalGen).filter isLeftHalf).map
        eraseColor =
      ((buildGlyphs xs ys obvs' revs obvPalGen revPalGen).filter isLeftHalf).map
        eraseColor) := by
  unfold buildGlyphs
  exact buildGlyphsFrom_obv_independent (xs.zip ys) obvs obvs' revs 0 _ _ _ hlen

/-- Witness for C8: one row, obverse column changed from A to B, reverse
column fixed at X. -/
theorem rebuild_obverse_preserves_reverse_witness :
    ((buildGlyphs [1] [2] ["A"] ["X"] (fun _ => ["red"])
          (fun _ => ["green"])).filter isRightHalf =
      (buildGlyphs [1] [2] ["B"] ["X"] (fun _ => ["red"])
          (fun _ => ["green"])).filter isRightHalf) ∧
    (((buildGlyphs [1] [2] ["A"] ["X"] (fun _ => ["red"])
          (fun _ => ["green"])).filter isLeftHalf).map eraseColor =
      ((buildGlyphs [1] [2] ["B"] ["X"] (fun _ => ["red"])
          (fun _ => ["green"])).filter isLeftHalf).map eraseColor) :=
  rebuild_obverse_preserves_reverse [1] [2] ["A"] ["B"] ["X"]
    (fun _ => ["red"]) (fun _ => ["green"]) rfl

end DieStudyVis
